import Mathlib

/-!
Verification of the docx_flow batch-editing library against its design
specification.  The Python sources are shallowly embedded: each mutating
routine becomes a pure Lean function over an explicit state type, and the
spec's testable properties become theorems about those functions.
-/

namespace DocxFlow

/-! ## Section index (editor.py, `DocxEditor._build_element_section_map`)

The document body is an ordered list of block elements.  The builder cares
only about three shapes: a paragraph (whose paragraph properties may carry a
`w:sectPr` section-break marker), a table, and any other body child (skipped
by the tag dispatch in the Python loop). -/

inductive Block : Type
  | para (hasSectPr : Bool)
  | tbl
  | other
  deriving DecidableEq

/-- Loop state of `_build_element_section_map`: the two position→ordinal maps
(dicts keyed by consecutive counters, hence lists) and the running section
ordinal. -/
structure SectionMapState where
  paraMap : List Nat
  tableMap : List Nat
  sectionIdx : Nat
  deriving DecidableEq

/-- One iteration of the body loop: a paragraph records the current ordinal at
the next paragraph position and then bumps the ordinal iff it carries a
section break; a table records the current ordinal at the next table
position; anything else is skipped. -/
def buildStep (st : SectionMapState) (b : Block) : SectionMapState :=
  match b with
  | .para hasSectPr =>
      { paraMap := st.paraMap ++ [st.sectionIdx]
        tableMap := st.tableMap
        sectionIdx := if hasSectPr then st.sectionIdx + 1 else st.sectionIdx }
  | .tbl =>
      { paraMap := st.paraMap
        tableMap := st.tableMap ++ [st.sectionIdx]
        sectionIdx := st.sectionIdx }
  | .other => st

/-- Embedding of `DocxEditor._build_element_section_map`: fold the loop body over the
document body, starting from empty maps and section ordinal 0. -/
def buildElementSectionMap (body : List Block) : SectionMapState :=
  body.foldl buildStep ⟨[], [], 0⟩

/-- Number of paragraphs carrying a section-break marker. -/
def countSectionBreaks : List Block → Nat
  | [] => 0
  | .para true :: rest => countSectionBreaks rest + 1
  | _ :: rest => countSectionBreaks rest

/-- Number of paragraph body children. -/
def countParas : List Block → Nat
  | [] => 0
  | .para _ :: rest => countParas rest + 1
  | _ :: rest => countParas rest

/-- Number of table body children. -/
def countTables : List Block → Nat
  | [] => 0
  | .tbl :: rest => countTables rest + 1
  | _ :: rest => countTables rest

/-- Ordinals recorded for paragraphs, in body order, when the running section
ordinal starts at `s`. -/
def paraRecFrom (s : Nat) : List Block → List Nat
  | [] => []
  | .para b :: rest => s :: paraRecFrom (if b then s + 1 else s) rest
  | .tbl :: rest => paraRecFrom s rest
  | .other :: rest => paraRecFrom s rest

/-- Ordinals recorded for tables, in body order. -/
def tblRecFrom (s : Nat) : List Block → List Nat
  | [] => []
  | .para b :: rest => tblRecFrom (if b then s + 1 else s) rest
  | .tbl :: rest => s :: tblRecFrom s rest
  | .other :: rest => tblRecFrom s rest

/-- Ordinals recorded for paragraphs and tables together, in body order. -/
def recordedFrom (s : Nat) : List Block → List Nat
  | [] => []
  | .para b :: rest => s :: recordedFrom (if b then s + 1 else s) rest
  | .tbl :: rest => s :: recordedFrom s rest
  | .other :: rest => recordedFrom s rest

theorem foldl_buildStep (body : List Block) :
    ∀ st : SectionMapState,
      body.foldl buildStep st =
        ⟨st.paraMap ++ paraRecFrom st.sectionIdx body,
         st.tableMap ++ tblRecFrom st.sectionIdx body,
         st.sectionIdx + countSectionBreaks body⟩ := by
  induction body with
  | nil => intro st; simp [paraRecFrom, tblRecFrom, countSectionBreaks]
  | cons b rest ih =>
      intro st
      cases b with
      | para hasSectPr =>
          cases hasSectPr <;>
            simp [List.foldl_cons, buildStep, ih, paraRecFrom, tblRecFrom,
              countSectionBreaks] <;> omega
      | tbl =>
          simp [List.foldl_cons, buildStep, ih, paraRecFrom, tblRecFrom,
            countSectionBreaks]
      | other =>
          simp [List.foldl_cons, buildStep, ih, paraRecFrom, tblRecFrom,
            countSectionBreaks]

theorem buildElementSectionMap_eq (body : List Block) :
    buildElementSectionMap body =
      ⟨paraRecFrom 0 body, tblRecFrom 0 body, countSectionBreaks body⟩ := by
  simpa using foldl_buildStep body ⟨[], [], 0⟩

theorem recordedFrom_lower (body : List Block) :
    ∀ s : Nat, ∀ x ∈ recordedFrom s body, s ≤ x := by
  induction body with
  | nil => intro s x hx; simp [recordedFrom] at hx
  | cons b rest ih =>
      intro s x hx
      cases b with
      | para hasSectPr =>
          simp only [recordedFrom, List.mem_cons] at hx
          rcases hx with rfl | hx
          · exact le_refl x
          · have := ih (if hasSectPr then s + 1 else s) x hx
            cases hasSectPr <;> simp at this <;> omega
      | tbl =>
          simp only [recordedFrom, List.mem_cons] at hx
          rcases hx with rfl | hx
          · exact le_refl x
          · exact ih s x hx
      | other =>
          simp only [recordedFrom] at hx
          exact ih s x hx

theorem recordedFrom_pairwise (body : List Block) :
    ∀ s : Nat, (recordedFrom s body).Pairwise (· ≤ ·) := by
  induction body with
  | nil => intro s; simp [recordedFrom]
  | cons b rest ih =>
      intro s
      cases b with
      | para hasSectPr =>
          refine List.Pairwise.cons ?_ (ih (if hasSectPr then s + 1 else s))
          intro x hx
          have := recordedFrom_lower rest (if hasSectPr then s + 1 else s) x hx
          cases hasSectPr <;> simp at this <;> omega
      | tbl =>
          exact List.Pairwise.cons (fun x hx => recordedFrom_lower rest s x hx) (ih s)
      | other => exact ih s

theorem paraRecFrom_sublist (body : List Block) :
    ∀ s : Nat, List.Sublist (paraRecFrom s body) (recordedFrom s body) := by
  induction body with
  | nil => intro s; simp [paraRecFrom, recordedFrom]
  | cons b rest ih =>
      intro s
      cases b with
      | para hasSectPr =>
          exact List.Sublist.cons₂ s (ih (if hasSectPr then s + 1 else s))
      | tbl => exact List.Sublist.cons s (ih s)
      | other => exact ih s

theorem tblRecFrom_sublist (body : List Block) :
    ∀ s : Nat, List.Sublist (tblRecFrom s body) (recordedFrom s body) := by
  induction body with
  | nil => intro s; simp [tblRecFrom, recordedFrom]
  | cons b rest ih =>
      intro s
      cases b with
      | para hasSectPr =>
          exact List.Sublist.cons s (ih (if hasSectPr then s + 1 else s))
      | tbl => exact List.Sublist.cons₂ s (ih s)
      | other => exact ih s

theorem paraRecFrom_length (body : List Block) :
    ∀ s : Nat, (paraRecFrom s body).length = countParas body := by
  induction body with
  | nil => intro s; simp [paraRecFrom, countParas]
  | cons b rest ih =>
      intro s
      cases b with
      | para hasSectPr => simp [paraRecFrom, countParas, ih]
      | tbl => simp [paraRecFrom, countParas, ih]
      | other => simp [paraRecFrom, countParas, ih]

theorem tblRecFrom_length (body : List Block) :
    ∀ s : Nat, (tblRecFrom s body).length = countTables body := by
  induction body with
  | nil => intro s; simp [tblRecFrom, countTables]
  | cons b rest ih =>
      intro s
      cases b with
      | para hasSectPr => simp [tblRecFrom, countTables, ih]
      | tbl => simp [tblRecFrom, countTables, ih]
      | other => simp [tblRecFrom, countTables, ih]

theorem recordedFrom_zero_breaks (body : List Block) :
    ∀ s : Nat, countSectionBreaks body = 0 → ∀ x ∈ recordedFrom s body, x = s := by
  induction body with
  | nil => intro s _ x hx; simp [recordedFrom] at hx
  | cons b rest ih =>
      intro s hcount x hx
      cases b with
      | para hasSectPr =>
          cases hasSectPr with
          | true => simp [countSectionBreaks] at hcount
          | false =>
              simp only [recordedFrom, List.mem_cons] at hx
              rcases hx with rfl | hx
              · rfl
              · exact ih s (by simpa [countSectionBreaks] using hcount) x (by simpa using hx)
      | tbl =>
          simp only [recordedFrom, List.mem_cons] at hx
          rcases hx with rfl | hx
          · rfl
          · exact ih s (by simpa [countSectionBreaks] using hcount) x hx
      | other =>
          simp only [recordedFrom] at hx
          exact ih s (by simpa [countSectionBreaks] using hcount) x hx

/-- C1: the section index built at Editor construction assigns an ordinal to
every paragraph position and table position; in body order the recorded
ordinals are non-decreasing (the per-paragraph and per-table maps are
sub-sequences of that body-order sequence, hence themselves non-decreasing);
the running section ordinal ends at the number of section-break-bearing
paragraphs; and in a document with zero section breaks every paragraph and
table is mapped to ordinal 0. -/
theorem buildElementSectionMap_spec (body : List Block) :
    (buildElementSectionMap body).paraMap.length = countParas body ∧
    (buildElementSectionMap body).tableMap.length = countTables body ∧
    List.Pairwise (· ≤ ·) (recordedFrom 0 body) ∧
    List.Sublist (buildElementSectionMap body).paraMap (recordedFrom 0 body) ∧
    List.Sublist (buildElementSectionMap body).tableMap (recordedFrom 0 body) ∧
    (buildElementSectionMap body).paraMap.Pairwise (· ≤ ·) ∧
    (buildElementSectionMap body).tableMap.Pairwise (· ≤ ·) ∧
    (buildElementSectionMap body).sectionIdx = countSectionBreaks body ∧
    (countSectionBreaks body = 0 →
      ((buildElementSectionMap body).paraMap.all (· == 0)) = true ∧
      ((buildElementSectionMap body).tableMap.all (· == 0)) = true) := by
  rw [buildElementSectionMap_eq]
  refine ⟨paraRecFrom_length body 0, tblRecFrom_length body 0,
    recordedFrom_pairwise body 0, paraRecFrom_sublist body 0,
    tblRecFrom_sublist body 0,
    (recordedFrom_pairwise body 0).sublist (paraRecFrom_sublist body 0),
    (recordedFrom_pairwise body 0).sublist (tblRecFrom_sublist body 0),
    rfl, ?_⟩
  intro hzero
  constructor
  · rw [List.all_eq_true]
    intro x hx
    have hx' : x ∈ recordedFrom 0 body :=
      (paraRecFrom_sublist body 0).mem hx
    simpa using recordedFrom_zero_breaks body 0 hzero x hx'
  · rw [List.all_eq_true]
    intro x hx
    have hx' : x ∈ recordedFrom 0 body :=
      (tblRecFrom_sublist body 0).mem hx
    simpa using recordedFrom_zero_breaks body 0 hzero x hx'

/-- Witness for C1 on a concrete break-free body: both maps carry only
ordinal 0. -/
theorem buildElementSectionMap_spec_witness :
    ((buildElementSectionMap [Block.para false, Block.tbl, Block.para false]).paraMap.all
      (· == 0)) = true ∧
    ((buildElementSectionMap [Block.para false, Block.tbl, Block.para false]).tableMap.all
      (· == 0)) = true :=
  (buildElementSectionMap_spec
    [Block.para false, Block.tbl, Block.para false]).2.2.2.2.2.2.2.2 (by decide)

/-! ## Fluent selector (selector.py, `FluentSelector.get_by_index`)

A selector snapshot is just its ordered element list; `get_by_index` first
adds the list length to a negative index, then returns a one-element selector
when the adjusted index is in range and an empty selector otherwise. -/

/-- The negative-index adjustment (`if index < 0: index += len(elements)`). -/
def normalizeIndex (len : Nat) (index : Int) : Int :=
  if index < 0 then index + len else index

/-- Embedding of `FluentSelector.get_by_index`. -/
def getByIndex {α : Type} (elements : List α) (index : Int) : List α :=
  if h : 0 ≤ normalizeIndex elements.length index ∧
      normalizeIndex elements.length index < (elements.length : Int) then
    [elements.get ⟨(normalizeIndex elements.length index).toNat, by omega⟩]
  else
    []

/-- C8: `get_by_index` returns the singleton selector at position `i` for an
in-range index, normalizes a negative index by adding the element count, and
returns an empty selector (never an error) when the index is out of range on
either side; on a 3-element selection, index `-1` selects exactly what index
`2` selects. -/
theorem getByIndex_spec {α : Type} (elements : List α) (index : Int) :
    (0 ≤ index → getByIndex elements index = (elements.get? index.toNat).toList) ∧
    (index < 0 → 0 ≤ index + elements.length →
      getByIndex elements index = (elements.get? (index + elements.length).toNat).toList) ∧
    (index + elements.length < 0 → getByIndex elements index = []) ∧
    ((elements.length : Int) ≤ index → getByIndex elements index = []) ∧
    (elements.length = 3 → getByIndex elements (-1) = getByIndex elements 2) := by
  have hnormNeg : ∀ j : Int, j < 0 → normalizeIndex elements.length j = j + elements.length := by
    intro j h; simp [normalizeIndex, h]
  have hnormPos : ∀ j : Int, 0 ≤ j → normalizeIndex elements.length j = j := by
    intro j h; simp [normalizeIndex, not_lt.mpr h]
  refine ⟨?_, ?_, ?_, ?_, ?_⟩
  · intro h
    rcases lt_or_le index (elements.length : Int) with hlt | hge
    · rw [getByIndex, dif_pos (by rw [hnormPos index h]; exact ⟨h, hlt⟩)]
      rw [List.get?_eq_get (show index.toNat < elements.length by omega)]
      simp only [Option.toList_some, List.cons.injEq, and_true]
      congr 1
      exact Fin.ext (by simp [hnormPos index h])
    · rw [getByIndex, dif_neg (by rw [hnormPos index h]; omega)]
      rw [List.get?_eq_none.mpr (by omega)]
      rfl
  · intro h h0
    rcases lt_or_le (index + elements.length) (elements.length : Int) with hlt | hge
    · rw [getByIndex, dif_pos (by rw [hnormNeg index h]; exact ⟨h0, hlt⟩)]
      rw [List.get?_eq_get (show (index + elements.length).toNat < elements.length by omega)]
      simp only [Option.toList_some, List.cons.injEq, and_true]
      congr 1
      exact Fin.ext (by simp [hnormNeg index h])
    · rw [getByIndex, dif_neg (by rw [hnormNeg index h]; omega)]
      rw [List.get?_eq_none.mpr (by omega)]
      rfl
  · intro h
    have hneg : index < 0 := by omega
    rw [getByIndex, dif_neg (by rw [hnormNeg index hneg]; omega)]
  · intro h
    have h0 : 0 ≤ index := by omega
    rw [getByIndex, dif_neg (by rw [hnormPos index h0]; omega)]
  · intro h3
    have e1 : normalizeIndex elements.length (-1) = -1 + (elements.length : Int) :=
      hnormNeg (-1) (by norm_num)
    have e2 : normalizeIndex elements.length 2 = 2 := hnormPos 2 (by norm_num)
    rw [getByIndex, dif_pos (by rw [e1]; omega), getByIndex, dif_pos (by rw [e2]; omega)]
    simp only [List.cons.injEq, and_true]
    congr 1
    exact Fin.ext (by simp [e1, e2]; omega)

/-- Witness for C8 on a concrete 3-element selection. -/
theorem getByIndex_spec_witness :
    getByIndex [10, 20, 30] (0 : Int) = (([10, 20, 30] : List Nat).get? 0).toList ∧
    getByIndex [10, 20, 30] (-1 : Int) = (([10, 20, 30] : List Nat).get? 2).toList ∧
    getByIndex ([10, 20, 30] : List Nat) (-4 : Int) = [] ∧
    getByIndex ([10, 20, 30] : List Nat) (3 : Int) = [] ∧
    getByIndex ([10, 20, 30] : List Nat) (-1) = getByIndex [10, 20, 30] 2 :=
  ⟨(getByIndex_spec [10, 20, 30] 0).1 (by decide),
   (getByIndex_spec [10, 20, 30] (-1)).2.1 (by decide) (by decide),
   (getByIndex_spec [10, 20, 30] (-4)).2.2.1 (by decide),
   (getByIndex_spec [10, 20, 30] 3).2.2.2.1 (by decide),
   (getByIndex_spec [10, 20, 30] (-1)).2.2.2.2 (by decide)⟩

/-! ## Text replacement (actions.py, `ReplaceTextAction`)

`replace_in_paragraph` runs over the runs of a paragraph; a run whose text
contains the old substring gets `str.replace(old, new)` applied (leftmost,
non-overlapping scan).  Strings are embedded as `List Char`; `pyReplace`
mirrors CPython's `str.replace`, including the empty-pattern case, and
`replaceGo` carries a structural fuel bounded by the scanned length. -/

/-- Leftmost non-overlapping replacement scan of `str.replace` for a
non-empty pattern; `fuel` dominates the length of `s`. -/
def replaceGo (old new : List Char) : Nat → List Char → List Char
  | 0, s => s
  | _ + 1, [] => []
  | fuel + 1, c :: rest =>
    if old <+: (c :: rest) then
      new ++ replaceGo old new fuel ((c :: rest).drop old.length)
    else
      c :: replaceGo old new fuel rest

/-- Embedding of `str.replace(old, new)`: an empty pattern inserts `new` around every
character, otherwise the leftmost non-overlapping scan runs. -/
def pyReplace (old new s : List Char) : List Char :=
  if old = [] then new ++ s.flatMap (fun c => c :: new)
  else replaceGo old new s.length s

/-- The per-run body of `replace_in_paragraph`: replace only when the run's
text contains the old substring. -/
def runReplace (old new run : List Char) : List Char :=
  if old <:+: run then pyReplace old new run else run

/-- Embedding of `ReplaceTextAction.replace_in_paragraph` over the runs of one paragraph. -/
def replaceInParagraph (old new : List Char) (runs : List (List Char)) :
    List (List Char) :=
  runs.map (runReplace old new)

theorem replaceGo_self (old : List Char) (hold : old ≠ []) :
    ∀ fuel, ∀ s : List Char, s.length ≤ fuel → replaceGo old old fuel s = s := by
  intro fuel
  induction fuel with
  | zero => intro s _; rfl
  | succ fuel ih =>
      intro s hs
      cases s with
      | nil => rfl
      | cons c rest =>
          rw [replaceGo]
          split
          · rename_i hpre
            obtain ⟨t, ht⟩ := hpre
            have hdrop : (c :: rest).drop old.length = t := by
              rw [← ht, List.drop_left]
            rw [hdrop, ih t ?_, ht]
            have := congrArg List.length ht
            simp only [List.length_append, List.length_cons] at this
            have holdpos : 0 < old.length := List.length_pos.mpr hold
            simp only [List.length_cons] at hs
            omega
          · rw [ih rest ?_]
            simp only [List.length_cons] at hs
            omega

theorem pyReplace_self (old s : List Char) : pyReplace old old s = s := by
  rw [pyReplace]
  split
  · rename_i h
    subst h
    simp
  · rename_i h
    exact replaceGo_self old h s.length s le_rfl

theorem runReplace_self (old : List Char) : ∀ run, runReplace old old run = run := by
  intro run
  rw [runReplace]
  split
  · exact pyReplace_self old run
  · rfl

/-- C7 (amended): replace-text with `old == new` is the identity on every
paragraph; it is a no-op on a run not containing the old substring; and a
second execution is a no-op whenever the text produced by the first execution
no longer contains the old substring.  (The original claim's condition — that
`new` does not contain `old` — is not sufficient, see the counterexample.) -/
theorem replaceText_amended (old new run : List Char) (runs : List (List Char)) :
    replaceInParagraph old old runs = runs ∧
    (¬ old <:+: run → runReplace old new run = run) ∧
    (¬ old <:+: runReplace old new run →
      runReplace old new (runReplace old new run) = runReplace old new run) := by
  refine ⟨?_, fun h => if_neg h, fun h => if_neg h⟩
  have hid : runReplace old old = id := funext (runReplace_self old)
  simp [replaceInParagraph, hid]

/-- Witness for C7 on concrete runs. -/
theorem replaceText_amended_witness :
    replaceInParagraph ['a', 'b'] ['a', 'b'] [['a', 'a', 'b']] = [['a', 'a', 'b']] ∧
    runReplace ['a', 'b'] ['c'] ['x'] = ['x'] ∧
    runReplace ['a', 'b'] ['c'] (runReplace ['a', 'b'] ['c'] ['x']) =
      runReplace ['a', 'b'] ['c'] ['x'] := by
  obtain ⟨h1, h2, h3⟩ := replaceText_amended ['a', 'b'] ['c'] ['x'] [['a', 'a', 'b']]
  exact ⟨h1, h2 (by decide), h3 (by decide)⟩

/-- Counterexample to C7 as stated: with old `"ab"` and new `"b"` — where the
new text does not contain the old text — executing the action twice on the
run `"aab"` gives `"b"`, while executing it once gives `"ab"`. -/
theorem replaceText_counterexample :
    ¬ (['a', 'b'] <:+: ['b']) ∧
    replaceInParagraph ['a', 'b'] ['b']
        (replaceInParagraph ['a', 'b'] ['b'] [['a', 'a', 'b']]) ≠
      replaceInParagraph ['a', 'b'] ['b'] [['a', 'a', 'b']] := by
  decide

/-! ## Font size (actions.py, `SetFontSizeAction`)

The action stores an optional absolute size and an optional relative delta
(both in points; absolute sizes are stored as `Pt` lengths, which subclass
`int`, so Python truthiness tests them against zero).  A run's font size is
an optional point value. -/

structure SetFontSizeAction where
  absoluteSize : Option Int
  relativeChange : Option Int
  deriving DecidableEq

/-- Action built by `SetFontSizeAction(size)` for a numeric `size` (the int/float branch of
`__init__`, which never raises): absolute size `Pt(size)`, no relative
change. -/
def mkSetFontSizeNum (n : Int) : SetFontSizeAction :=
  { absoluteSize := some n, relativeChange := none }

/-- Action built by `SetFontSizeAction('+d')` or `SetFontSizeAction('-d')`: a signed relative
delta, no absolute size. -/
def mkSetFontSizeRel (d : Int) : SetFontSizeAction :=
  { absoluteSize := none, relativeChange := some d }

/-- Python truthiness of the stored optional numbers (`if self.absolute_size:`
— `None` and `0` are both falsy, since `Pt` subclasses `int`). -/
def optTruthy : Option Int → Bool
  | none => false
  | some n => n != 0

/-- The per-run body of `_apply_to_paragraph`. -/
def applyToRunSize (act : SetFontSizeAction) (size : Option Int) : Option Int :=
  if optTruthy act.absoluteSize then act.absoluteSize
  else if optTruthy act.relativeChange then
    match size, act.relativeChange with
    | some s, some d => if s + d > 0 then some (s + d) else some s
    | _, _ => size
  else size

/-- Embedding of `SetFontSizeAction._apply_to_paragraph` over the run sizes of one
paragraph. -/
def applyToParagraphSizes (act : SetFontSizeAction) (runs : List (Option Int)) :
    List (Option Int) :=
  runs.map (applyToRunSize act)

/-- Embedding of `SetFontSizeAction.execute` on a table: every paragraph of every cell of
every row. -/
def applyToTableSizes (act : SetFontSizeAction)
    (tbl : List (List (List (List (Option Int))))) :
    List (List (List (List (Option Int)))) :=
  tbl.map (fun row => row.map (fun cell => cell.map (applyToParagraphSizes act)))

/-- C9: relative font-size adjustment leaves a run without an explicit size
untouched; on a run with explicit size `S` it yields `S + d` when that is
positive and leaves the size at `S` otherwise, so a positive size never
becomes ≤ 0. -/
theorem fontSize_relative_spec (d s : Int) :
    applyToRunSize (mkSetFontSizeRel d) none = none ∧
    (0 < s + d → applyToRunSize (mkSetFontSizeRel d) (some s) = some (s + d)) ∧
    (s + d ≤ 0 → applyToRunSize (mkSetFontSizeRel d) (some s) = some s) ∧
    (0 < s → ∃ r, applyToRunSize (mkSetFontSizeRel d) (some s) = some r ∧ 0 < r) := by
  by_cases hd : d = 0
  · subst hd
    refine ⟨rfl, fun h => ?_, fun h => rfl, fun h => ⟨s, rfl, h⟩⟩
    simp only [applyToRunSize, mkSetFontSizeRel, optTruthy]
    norm_num
  · have htruthy : optTruthy (mkSetFontSizeRel d).relativeChange = true := by
      simp [mkSetFontSizeRel, optTruthy, hd]
    refine ⟨?_, ?_, ?_, ?_⟩
    · simp [applyToRunSize, htruthy, mkSetFontSizeRel, optTruthy]
    · intro h
      simp [applyToRunSize, htruthy, mkSetFontSizeRel, optTruthy, hd, h]
    · intro h
      simp [applyToRunSize, htruthy, mkSetFontSizeRel, optTruthy, hd, not_lt.mpr h]
    · intro h
      by_cases hpos : 0 < s + d
      · exact ⟨s + d, by simp [applyToRunSize, mkSetFontSizeRel, optTruthy, hd, hpos], hpos⟩
      · refine ⟨s, ?_, h⟩
        simp [applyToRunSize, mkSetFontSizeRel, optTruthy, hd, hpos]

/-- Witness for C9 at delta `-4`: size 10 becomes 6, size 3 stays 3, unset
stays unset and positive sizes stay positive. -/
theorem fontSize_relative_spec_witness :
    applyToRunSize (mkSetFontSizeRel (-4)) none = none ∧
    applyToRunSize (mkSetFontSizeRel (-4)) (some 10) = some 6 ∧
    applyToRunSize (mkSetFontSizeRel (-4)) (some 3) = some 3 := by
  obtain ⟨h1, h2, h3, _⟩ := fontSize_relative_spec (-4) 10
  obtain ⟨_, _, h3', _⟩ := fontSize_relative_spec (-4) 3
  exact ⟨h1, by simpa using h2 (by norm_num), h3' (by norm_num)⟩

/-- C10: the action built from the numeric size 0 (which `__init__` accepts
without error, storing `Pt(0)`) is a complete no-op on every paragraph and
every table, because `Pt(0)` is falsy and the relative branch is empty. -/
theorem fontSize_absolute_zero_noop (runs : List (Option Int))
    (tbl : List (List (List (List (Option Int))))) :
    mkSetFontSizeNum 0 = { absoluteSize := some 0, relativeChange := none } ∧
    applyToParagraphSizes (mkSetFontSizeNum 0) runs = runs ∧
    applyToTableSizes (mkSetFontSizeNum 0) tbl = tbl := by
  have hrun : applyToRunSize (mkSetFontSizeNum 0) = id := by
    funext size
    simp [applyToRunSize, mkSetFontSizeNum, optTruthy]
  have hpara : applyToParagraphSizes (mkSetFontSizeNum 0) = id := by
    funext rs
    simp [applyToParagraphSizes, hrun]
  refine ⟨rfl, by rw [hpara]; rfl, ?_⟩
  simp [applyToTableSizes, hpara]

/-! ## Section orientation (actions.py, `SetSectionOrientationAction`)

A section carries optional page width/height (EMU lengths) and an
orientation flag; the action raises `TypeError` on anything that is not a
section, substitutes A4 defaults when either dimension is unset, then sets
landscape and reassigns width := max, height := min. -/

inductive PageOrient : Type
  | portrait
  | landscape
  deriving DecidableEq

structure PageSect where
  pageWidth : Option Int
  pageHeight : Option Int
  orient : PageOrient
  deriving DecidableEq

inductive DocxElement : Type
  | paragraphEl
  | tableEl
  | sectionEl (s : PageSect)
  deriving DecidableEq

/-- Value of `Inches(8.27)` in EMU (A4 width). -/
def a4WidthEmu : Int := 7562088

/-- Value of `Inches(11.69)` in EMU (A4 height). -/
def a4HeightEmu : Int := 10689336

/-- Embedding of `SetSectionOrientationAction.execute`. -/
def setSectionOrient : DocxElement → Except String DocxElement
  | .sectionEl s =>
      match s.pageWidth, s.pageHeight with
      | some w, some h =>
          .ok (.sectionEl ⟨some (max w h), some (min w h), .landscape⟩)
      | _, _ =>
          .ok (.sectionEl ⟨some (max a4WidthEmu a4HeightEmu),
                           some (min a4WidthEmu a4HeightEmu), .landscape⟩)
  | _ => .error "SetSectionOrientationAction only accepts Section"

/-- The landscape post-condition: the result is a section whose width and
height are both set, with width ≥ height and landscape orientation. -/
def goodLandscape : Except String DocxElement → Prop
  | .ok (.sectionEl ⟨some w, some h, o⟩) => h ≤ w ∧ o = PageOrient.landscape
  | _ => False

/-- Whether the call raised. -/
def raisedError : Except String DocxElement → Bool
  | .error _ => true
  | .ok _ => false

/-- C4: on any section — whatever the prior width/height ordering, including
unset dimensions, for which A4 defaults are substituted — the action yields a
landscape section with width ≥ height; on a non-section element it raises a
type error. -/
theorem setSectionOrient_spec (s : PageSect) (e : DocxElement) :
    goodLandscape (setSectionOrient (.sectionEl s)) ∧
    ((s.pageWidth = none ∨ s.pageHeight = none) →
      setSectionOrient (.sectionEl s) =
        .ok (.sectionEl ⟨some (max a4WidthEmu a4HeightEmu),
                         some (min a4WidthEmu a4HeightEmu), .landscape⟩)) ∧
    ((∀ s' : PageSect, e ≠ .sectionEl s') → raisedError (setSectionOrient e) = true) := by
  obtain ⟨ow, oh, o⟩ := s
  refine ⟨?_, ?_, ?_⟩
  · cases ow <;> cases oh <;>
      simp [setSectionOrient, goodLandscape, min_le_max]
  · intro h
    cases ow <;> cases oh <;> simp_all [setSectionOrient]
  · intro h
    cases e with
    | paragraphEl => rfl
    | tableEl => rfl
    | sectionEl s' => exact absurd rfl (h s')

/-- Witness for C4: a portrait 5×10 section, a section with unset width, and
a paragraph. -/
theorem setSectionOrient_spec_witness :
    goodLandscape (setSectionOrient (.sectionEl ⟨some 5, some 10, .portrait⟩)) ∧
    setSectionOrient (.sectionEl ⟨none, some 3, .portrait⟩) =
      .ok (.sectionEl ⟨some (max a4WidthEmu a4HeightEmu),
                       some (min a4WidthEmu a4HeightEmu), .landscape⟩) ∧
    raisedError (setSectionOrient .paragraphEl) = true :=
  ⟨(setSectionOrient_spec ⟨some 5, some 10, .portrait⟩ .paragraphEl).1,
   (setSectionOrient_spec ⟨none, some 3, .portrait⟩ .paragraphEl).2.1 (Or.inl rfl),
   (setSectionOrient_spec ⟨none, none, .portrait⟩ .paragraphEl).2.2
     (fun _ h => DocxElement.noConfusion h)⟩

/-! ## Per-column widths (actions.py, `SetTableColumnWidthAction`)

A table is its column count, its autofit flag and its grid of per-cell
widths (a cell width is an optional length).  The action validates the
width-list cardinality before touching anything, then disables autofit and
writes `widths[idx]` into cell `idx` of every row. -/

structure WTable where
  colCount : Nat
  autofit : Bool
  rows : List (List (Option Int))
  deriving DecidableEq

/-- Embedding of `for idx, width in enumerate(widths): row.cells[idx].width = width` —
cell `idx` receives `widths[idx]`; cells past the end of the width list keep
their width. -/
def writeCells {β : Type} : List β → List (Option β) → List (Option β)
  | _, [] => []
  | [], c :: cs => c :: writeCells [] cs
  | w :: ws, _ :: cs => some w :: writeCells ws cs

/-- Embedding of `SetTableColumnWidthAction.execute`: the error (a raised `ValueError`) is
returned alongside the table state reached when it is raised — the check
precedes every mutation, so that state is the input table. -/
def setTableColumnWidth (widths : List Int) (t : WTable) : WTable × Option String :=
  if t.colCount ≠ widths.length then
    (t, some "column count mismatch")
  else
    ({ t with
        autofit := false
        rows := t.rows.map (fun row => writeCells widths row) }, none)

theorem writeCells_full {β : Type} :
    ∀ (ws : List β) (cs : List (Option β)), cs.length = ws.length →
      writeCells ws cs = ws.map some := by
  intro ws
  induction ws with
  | nil => intro cs h; cases cs with
      | nil => rfl
      | cons c cs => simp at h
  | cons w ws ih =>
      intro cs h
      cases cs with
      | nil => simp at h
      | cons c cs =>
          simp only [List.length_cons, Nat.succ.injEq] at h
          simp [writeCells, ih cs h]

theorem writeCells_rows {β : Type} (ws : List β) :
    ∀ rows : List (List (Option β)), (∀ row ∈ rows, row.length = ws.length) →
      rows.map (fun row => writeCells ws row) =
        List.replicate rows.length (ws.map some) := by
  intro rows
  induction rows with
  | nil => intro _; rfl
  | cons r rs ih =>
      intro h
      simp only [List.map_cons, List.length_cons, List.replicate_succ]
      rw [writeCells_full ws r (h r (by simp)), ih (fun row hrow => h row (by simp [hrow]))]

/-- C3: with a width list whose length differs from the column count the
action raises the cardinality error and the table is returned exactly as it
was (autofit, layout and every cell width unchanged); with a matching
length it succeeds, disables autofit, and writes each column's width onto
the corresponding cell of every row. -/
theorem setTableColumnWidth_spec (widths : List Int) (t : WTable) :
    (t.colCount ≠ widths.length →
      setTableColumnWidth widths t = (t, some "column count mismatch")) ∧
    (t.colCount = widths.length →
      (setTableColumnWidth widths t).2 = none ∧
      (setTableColumnWidth widths t).1.autofit = false ∧
      (setTableColumnWidth widths t).1.colCount = t.colCount ∧
      ((∀ row ∈ t.rows, row.length = t.colCount) →
        (setTableColumnWidth widths t).1.rows =
          List.replicate t.rows.length (widths.map some))) := by
  constructor
  · intro h
    simp [setTableColumnWidth, h]
  · intro h
    refine ⟨by simp [setTableColumnWidth, h], by simp [setTableColumnWidth, h],
      by simp [setTableColumnWidth, h], ?_⟩
    intro hrows
    have hrows' : ∀ row ∈ t.rows, row.length = widths.length := fun row hrow => by
      rw [hrows row hrow, h]
    simp [setTableColumnWidth, h, writeCells_rows widths t.rows hrows']

/-- Witness for C3: a cardinality mismatch leaves the table untouched; a
matching list rewrites every row. -/
theorem setTableColumnWidth_spec_witness :
    setTableColumnWidth [100] { colCount := 2, autofit := true, rows := [[none, none]] } =
      ({ colCount := 2, autofit := true, rows := [[none, none]] },
       some "column count mismatch") ∧
    (setTableColumnWidth [100, 200]
      { colCount := 2, autofit := true, rows := [[none, none], [some 5, some 7]] }).2 = none ∧
    (setTableColumnWidth [100, 200]
      { colCount := 2, autofit := true, rows := [[none, none], [some 5, some 7]] }).1.autofit =
      false ∧
    (setTableColumnWidth [100, 200]
      { colCount := 2, autofit := true, rows := [[none, none], [some 5, some 7]] }).1.rows =
      List.replicate 2 ([100, 200].map some) := by
  have h1 := (setTableColumnWidth_spec [100]
    { colCount := 2, autofit := true, rows := [[none, none]] }).1 (by decide)
  obtain ⟨h2, h3, _, h4⟩ := (setTableColumnWidth_spec [100, 200]
    { colCount := 2, autofit := true, rows := [[none, none], [some 5, some 7]] }).2 rfl
  exact ⟨h1, h2, h3, h4 (by decide)⟩

/-! ## Total table width (actions.py, `SetTableWidthAction`)

The relevant XML state is the autofit flag, the optional `w:tblLayout`
node (its `w:type` attribute) and the optional `w:tblW` node (its `w:w` and
`w:type` attributes) inside the optional `w:tblPr`. -/

structure TblPrX where
  tblLayoutType : Option String
  tblW : Option (Int × String)
  deriving DecidableEq

structure TWTable where
  allowAutofit : Bool
  tblPr : Option TblPrX
  deriving DecidableEq

/-- Embedding of `SetTableWidthAction.execute` (table case): disable autofit; create
`w:tblPr` if missing; create `w:tblLayout` with type `fixed` only if no
layout node exists (an existing node is left as found); find or create
`w:tblW` and set its `w:w` to the width in twips and `w:type` to `dxa`. -/
def setTableWidth (widthTwips : Int) (t : TWTable) : TWTable :=
  let pr := match t.tblPr with
    | none => ({ tblLayoutType := none, tblW := none } : TblPrX)
    | some pr => pr
  let layout := match pr.tblLayoutType with
    | none => some "fixed"
    | some l => some l
  { allowAutofit := false
    tblPr := some { tblLayoutType := layout, tblW := some (widthTwips, "dxa") } }

/-- The `w:type` attribute of the table's `w:tblLayout` node, when present. -/
def tableLayoutType (t : TWTable) : Option String :=
  match t.tblPr with
  | none => none
  | some pr => pr.tblLayoutType

/-- The table's `w:tblW` node, when present. -/
def tableWidthNode (t : TWTable) : Option (Int × String) :=
  match t.tblPr with
  | none => none
  | some pr => pr.tblW

/-- Counterexample to C5 as stated: on a table whose `w:tblLayout` node
already has type `autofit`, the action leaves that node untouched, so the
layout type after execution is `autofit`, not `fixed`. -/
theorem setTableWidth_counterexample :
    tableLayoutType (setTableWidth 7200
      { allowAutofit := true
        tblPr := some { tblLayoutType := some "autofit", tblW := none } }) =
      some "autofit" ∧
    (some "autofit" : Option String) ≠ some "fixed" := by
  refine ⟨rfl, by decide⟩

/-- C5 (amended): the action always disables autofit and always writes the
total width with unit type `dxa`; it sets the layout type to `fixed` only
when no layout node pre-exists — a pre-existing layout node keeps its
type. -/
theorem setTableWidth_amended (w : Int) (t : TWTable) :
    (setTableWidth w t).allowAutofit = false ∧
    tableWidthNode (setTableWidth w t) = some (w, "dxa") ∧
    (tableLayoutType t = none → tableLayoutType (setTableWidth w t) = some "fixed") ∧
    (∀ l, tableLayoutType t = some l → tableLayoutType (setTableWidth w t) = some l) := by
  obtain ⟨autofitFlag, pr⟩ := t
  cases pr with
  | none => exact ⟨rfl, rfl, fun _ => rfl, fun l hl => by simp [tableLayoutType] at hl⟩
  | some pr =>
      cases hpr : pr.tblLayoutType with
      | none =>
          refine ⟨rfl, rfl, fun _ => ?_, fun l hl => ?_⟩
          · simp [setTableWidth, tableLayoutType, hpr]
          · simp [tableLayoutType, hpr] at hl
      | some l0 =>
          refine ⟨rfl, rfl, fun hl => ?_, fun l hl => ?_⟩
          · simp [tableLayoutType, hpr] at hl
          · simp only [tableLayoutType, hpr] at hl
            simp [setTableWidth, tableLayoutType, hpr, hl]

/-- Witness for C5 on a table with no layout node and one with an existing
`autofit` layout node. -/
theorem setTableWidth_amended_witness :
    (setTableWidth 7200 { allowAutofit := true, tblPr := none }).allowAutofit = false ∧
    tableWidthNode (setTableWidth 7200 { allowAutofit := true, tblPr := none }) =
      some (7200, "dxa") ∧
    tableLayoutType (setTableWidth 7200 { allowAutofit := true, tblPr := none }) =
      some "fixed" ∧
    tableLayoutType (setTableWidth 7200
      { allowAutofit := false
        tblPr := some { tblLayoutType := some "autofit", tblW := some (1, "pct") } }) =
      some "autofit" :=
  ⟨(setTableWidth_amended 7200 { allowAutofit := true, tblPr := none }).1,
   (setTableWidth_amended 7200 { allowAutofit := true, tblPr := none }).2.1,
   (setTableWidth_amended 7200 { allowAutofit := true, tblPr := none }).2.2.1 rfl,
   (setTableWidth_amended 7200
      { allowAutofit := false
        tblPr := some { tblLayoutType := some "autofit", tblW := some (1, "pct") } }).2.2.2
     "autofit" rfl⟩

/-! ## Border removal (actions.py, `RemoveTableBordersAction`)

Border state is the `w:val` attribute of each of the six edge nodes inside a
`w:tblBorders`/`w:tcBorders` node; a `none` field is a missing edge node.
The table's `w:tblPr` and each cell's `w:tcPr` are optional, and the Python
code only acts under `if tbl_pr is not None` / `if tc_pr is not None`. -/

structure BorderEdges where
  top : Option String
  left : Option String
  bottom : Option String
  right : Option String
  insideH : Option String
  insideV : Option String
  deriving DecidableEq

/-- A freshly created borders node: no edge nodes yet. -/
def emptyEdges : BorderEdges := ⟨none, none, none, none, none, none⟩

/-- All six edges explicitly `nil`. -/
def nilEdges : BorderEdges :=
  ⟨some "nil", some "nil", some "nil", some "nil", some "nil", some "nil"⟩

/-- The edge loop: find or create each of the six edge nodes and set its
`w:val` to `nil`. -/
def setEdgesNil (b : BorderEdges) : BorderEdges :=
  { b with
      top := some "nil", left := some "nil", bottom := some "nil",
      right := some "nil", insideH := some "nil", insideV := some "nil" }

structure TcPrX where
  tcBorders : Option BorderEdges
  deriving DecidableEq

structure CellX where
  tcPr : Option TcPrX
  deriving DecidableEq

structure TblPrBorders where
  tblBorders : Option BorderEdges
  deriving DecidableEq

structure BTable where
  tblPr : Option TblPrBorders
  rows : List (List CellX)
  deriving DecidableEq

/-- Per-cell body of `RemoveTableBordersAction.execute`: when the cell has a
`w:tcPr`, find or create `w:tcBorders` and run the edge loop; a cell without
`w:tcPr` is skipped entirely. -/
def removeBordersCell (cell : CellX) : CellX :=
  match cell.tcPr with
  | none => cell
  | some tcpr => ⟨some ⟨some (setEdgesNil (tcpr.tcBorders.getD emptyEdges))⟩⟩

/-- Embedding of `RemoveTableBordersAction.execute`: the table-level pass (guarded on
`w:tblPr` being present) followed by the cell loop. -/
def removeTableBorders (t : BTable) : BTable :=
  { tblPr :=
      match t.tblPr with
      | none => none
      | some pr => some ⟨some (setEdgesNil (pr.tblBorders.getD emptyEdges))⟩
    rows := t.rows.map (fun row => row.map removeBordersCell) }

/-- The cell's border definition, when one exists. -/
def cellBorders (c : CellX) : Option BorderEdges :=
  match c.tcPr with
  | none => none
  | some p => p.tcBorders

theorem setEdgesNil_eq (b : BorderEdges) : setEdgesNil b = nilEdges := rfl

/-- Counterexample to C6 as stated: in a table whose single cell has no
`w:tcPr` node, the action leaves that cell without any border definition, so
not every cell ends with all six edges set to `nil`. -/
theorem removeTableBorders_counterexample :
    ((removeTableBorders ⟨some ⟨none⟩, [[⟨none⟩]]⟩).rows.map
        (fun row => row.map cellBorders)) = [[none]] ∧
    ([[(none : Option BorderEdges)]] : List (List (Option BorderEdges))) ≠
      [[some nilEdges]] := by
  refine ⟨rfl, by decide⟩

/-- C6 (amended): the six table-level edges are forced to `nil` (creating the
`w:tblBorders` node and any missing edge nodes) whenever the table has a
`w:tblPr` node, and the six cell-level edges are forced to `nil` for every
cell that has a `w:tcPr` node; a table or cell whose property node is absent
is left untouched. -/
theorem removeTableBorders_amended (t : BTable) :
    (t.tblPr = none → (removeTableBorders t).tblPr = none) ∧
    (∀ pr, t.tblPr = some pr → (removeTableBorders t).tblPr = some ⟨some nilEdges⟩) ∧
    (removeTableBorders t).rows.length = t.rows.length ∧
    (∀ i j cell, ((t.rows.get? i).bind (fun row => row.get? j)) = some cell →
      (((removeTableBorders t).rows.get? i).bind (fun row => row.get? j)) =
        some (if cell.tcPr = none then cell else ⟨some ⟨some nilEdges⟩⟩)) := by
  refine ⟨fun h => by simp [removeTableBorders, h], fun pr h => ?_, ?_, ?_⟩
  · simp [removeTableBorders, h, setEdgesNil_eq]
  · simp [removeTableBorders]
  · intro i j cell hcell
    cases hrow : t.rows.get? i with
    | none => rw [hrow] at hcell; simp at hcell
    | some row =>
        rw [hrow] at hcell
        simp only [Option.some_bind] at hcell
        have hres : (removeTableBorders t).rows.get? i = some (row.map removeBordersCell) := by
          show (t.rows.map (fun r => r.map removeBordersCell)).get? i =
            some (row.map removeBordersCell)
          rw [List.get?_map, hrow]
          rfl
        rw [hres]
        simp only [Option.some_bind, List.get?_map, hcell]
        obtain ⟨tc⟩ := cell
        cases tc with
        | none => rfl
        | some tcpr => rfl

/-- Witness for C6: a table with a property node, one bare cell and one cell
carrying an empty `w:tcPr`. -/
theorem removeTableBorders_amended_witness :
    (removeTableBorders ⟨some ⟨none⟩, [[⟨none⟩, ⟨some ⟨none⟩⟩]]⟩).tblPr =
      some ⟨some nilEdges⟩ ∧
    (((removeTableBorders ⟨some ⟨none⟩, [[⟨none⟩, ⟨some ⟨none⟩⟩]]⟩).rows.get? 0).bind
        (fun row => row.get? 0)) = some ⟨none⟩ ∧
    (((removeTableBorders ⟨some ⟨none⟩, [[⟨none⟩, ⟨some ⟨none⟩⟩]]⟩).rows.get? 0).bind
        (fun row => row.get? 1)) = some ⟨some ⟨some nilEdges⟩⟩ := by
  obtain ⟨_, h2, _, h4⟩ := removeTableBorders_amended ⟨some ⟨none⟩, [[⟨none⟩, ⟨some ⟨none⟩⟩]]⟩
  refine ⟨h2 ⟨none⟩ rfl, ?_, ?_⟩
  · have := h4 0 0 ⟨none⟩ rfl
    simpa using this
  · have := h4 0 1 ⟨some ⟨none⟩⟩ rfl
    simpa using this

/-! ## First-column-ratio autofit (actions.py, `AutoFitTableAction`)

The ratio branch of `execute` clears any previous `w:tblLayout`/`w:tblW`
nodes, then (for a non-empty table) forces fixed layout, sets the total
width to 5000 pct, disables autofit, and writes percentage-typed widths onto
the first row's cells.  CPython's `int(...)` truncates toward zero, embedded
here as `pyInt` over exact rationals. -/

structure PctTable where
  colCount : Nat
  allowAutofit : Bool
  tblLayoutType : Option String
  tblW : Option (Int × String)
  firstRowCellWidths : List (Option (Int × String))
  deriving DecidableEq

/-- CPython `int(x)`: truncation toward zero. -/
def pyInt (q : ℚ) : Int := if 0 ≤ q then ⌊q⌋ else ⌈q⌉

/-- Computation `first_col_pct = int(self.first_col_ratio * 5000)`. -/
def firstColPct (r : ℚ) : Int := pyInt (r * 5000)

/-- Computation `other_col_pct = int(remaining_pct / (col_count - 1))` where
`remaining_pct = 5000 - first_col_pct`. -/
def otherColPct (r : ℚ) (colCount : Nat) : Int :=
  pyInt (((5000 - firstColPct r : Int) : ℚ) / ((colCount - 1 : Nat) : ℚ))

/-- Width list `widths = [first_col_pct] + [other_col_pct] * (col_count - 1)` when the
table has more than one column, else `[5000]`. -/
def ratioWidths (r : ℚ) (colCount : Nat) : List Int :=
  if 1 < colCount then
    firstColPct r :: List.replicate (colCount - 1) (otherColPct r colCount)
  else
    [5000]

/-- The ratio branch of `AutoFitTableAction.execute`: conflicting nodes are
removed first; a zero-column table is then left with them removed; otherwise
fixed layout, 100 % width, autofit off, and percentage-typed first-row cell
widths. -/
def autoFitFirstColRatio (r : ℚ) (t : PctTable) : PctTable :=
  if t.colCount = 0 then
    { t with tblLayoutType := none, tblW := none }
  else
    { t with
        tblLayoutType := some "fixed"
        tblW := some (5000, "pct")
        allowAutofit := false
        firstRowCellWidths :=
          writeCells ((ratioWidths r t.colCount).map (fun w => (w, "pct")))
            t.firstRowCellWidths }

theorem firstColPct_floor (r : ℚ) (hr0 : 0 < r) : firstColPct r = ⌊r * 5000⌋ := by
  rw [firstColPct, pyInt, if_pos (by positivity)]

theorem firstColPct_lt (r : ℚ) (hr0 : 0 < r) (hr1 : r < 1) : firstColPct r < 5000 := by
  rw [firstColPct_floor r hr0]
  have h : r * 5000 < ((5000 : Int) : ℚ) := by push_cast; nlinarith
  exact Int.floor_lt.mpr h

/-- Counterexample to C2 as stated: with ratio 1/3 on a two-column table the
code writes 1666 percentage-units into the first cell, while
`round(r × 5000) = round(5000/3) = 1667`. -/
theorem autoFitFirstColRatio_counterexample :
    ((0 : ℚ) < 1 / 3 ∧ (1 / 3 : ℚ) < 1) ∧
    (autoFitFirstColRatio (1 / 3)
        ⟨2, true, none, none, [none, none]⟩).firstRowCellWidths =
      [some (1666, "pct"), some (3334, "pct")] ∧
    round ((1 / 3 : ℚ) * 5000) = 1667 ∧
    (1666 : Int) ≠ 1667 := by
  have h1 : firstColPct (1 / 3) = 1666 := by
    rw [firstColPct, pyInt, if_pos (by norm_num)]
    norm_num [Int.floor_eq_iff]
  have h2 : otherColPct (1 / 3) 2 = 3334 := by
    rw [otherColPct, h1, pyInt, if_pos (by norm_num)]
    norm_num
  have h3 : ratioWidths (1 / 3) 2 = [1666, 3334] := by
    rw [ratioWidths, if_pos (by norm_num : (1 : Nat) < 2), h1, h2]
    rfl
  refine ⟨by norm_num, ?_, ?_, by decide⟩
  · show writeCells ((ratioWidths (1 / 3) 2).map (fun w => (w, "pct"))) [none, none] =
      [some (1666, "pct"), some (3334, "pct")]
    rw [h3]
    rfl
  · rw [round_eq]
    norm_num [Int.floor_eq_iff]

/-- C2 (amended): for a ratio strictly between 0 and 1 on a table with more
than one column, the action forces fixed layout, a 100 % (`5000` pct) total
width and autofit off, and writes percentage-typed widths onto the first
row's cells: the first column gets `int(r × 5000)` — truncation, not
rounding — and every remaining column gets
`int((5000 − first) / (n − 1))`, again truncated. -/
theorem autoFitFirstColRatio_amended (r : ℚ) (t : PctTable)
    (hr0 : 0 < r) (hr1 : r < 1) (hcol : 1 < t.colCount)
    (hlen : t.firstRowCellWidths.length = t.colCount) :
    (autoFitFirstColRatio r t).tblLayoutType = some "fixed" ∧
    (autoFitFirstColRatio r t).tblW = some (5000, "pct") ∧
    (autoFitFirstColRatio r t).allowAutofit = false ∧
    firstColPct r = ⌊r * 5000⌋ ∧
    otherColPct r t.colCount =
      ⌊((5000 - firstColPct r : Int) : ℚ) / ((t.colCount - 1 : Nat) : ℚ)⌋ ∧
    (autoFitFirstColRatio r t).firstRowCellWidths =
      some (firstColPct r, "pct") ::
        List.replicate (t.colCount - 1) (some (otherColPct r t.colCount, "pct")) := by
  have hne : ¬ t.colCount = 0 := by omega
  have hnum : (0 : ℚ) ≤ ((5000 - firstColPct r : Int) : ℚ) := by
    have := firstColPct_lt r hr0 hr1
    push_cast
    have : (firstColPct r : ℚ) < 5000 := by exact_mod_cast this
    linarith
  have hc : otherColPct r t.colCount =
      ⌊((5000 - firstColPct r : Int) : ℚ) / ((t.colCount - 1 : Nat) : ℚ)⌋ := by
    rw [otherColPct, pyInt, if_pos (div_nonneg hnum (by positivity))]
  refine ⟨by simp [autoFitFirstColRatio, hne], by simp [autoFitFirstColRatio, hne],
    by simp [autoFitFirstColRatio, hne], firstColPct_floor r hr0, hc, ?_⟩
  have hwlen : t.firstRowCellWidths.length =
      ((ratioWidths r t.colCount).map (fun w => (w, "pct"))).length := by
    simp only [List.length_map, ratioWidths, if_pos hcol, List.length_cons,
      List.length_replicate]
    omega
  simp only [autoFitFirstColRatio, if_neg hne]
  rw [writeCells_full _ _ hwlen, List.map_map, ratioWidths, if_pos hcol]
  simp [List.map_replicate, Function.comp]

/-- Witness for C2: the spec's own scenario — ratio 1/2 on a four-column
table gives a 2500-unit first column and 833-unit remaining columns. -/
theorem autoFitFirstColRatio_amended_witness :
    (autoFitFirstColRatio (1 / 2 : ℚ)
        ⟨4, true, none, none, [none, none, none, none]⟩).tblLayoutType = some "fixed" ∧
    (autoFitFirstColRatio (1 / 2 : ℚ)
        ⟨4, true, none, none, [none, none, none, none]⟩).tblW = some (5000, "pct") ∧
    (autoFitFirstColRatio (1 / 2 : ℚ)
        ⟨4, true, none, none, [none, none, none, none]⟩).allowAutofit = false ∧
    (autoFitFirstColRatio (1 / 2 : ℚ)
        ⟨4, true, none, none, [none, none, none, none]⟩).firstRowCellWidths =
      some (firstColPct (1 / 2), "pct") ::
        List.replicate 3 (some (otherColPct (1 / 2) 4, "pct")) ∧
    firstColPct (1 / 2 : ℚ) = 2500 ∧
    otherColPct (1 / 2 : ℚ) 4 = 833 := by
  obtain ⟨l1, l2, l3, _, _, l6⟩ := autoFitFirstColRatio_amended (1 / 2)
    ⟨4, true, none, none, [none, none, none, none]⟩
    (by norm_num) (by norm_num) (by norm_num) (by decide)
  have hfirst : firstColPct (1 / 2 : ℚ) = 2500 := by
    rw [firstColPct, pyInt, if_pos (by norm_num)]
    norm_num
  have hother : otherColPct (1 / 2 : ℚ) 4 = 833 := by
    rw [otherColPct, hfirst, pyInt, if_pos (by norm_num)]
    norm_num [Int.floor_eq_iff]
  exact ⟨l1, l2, l3, l6, hfirst, hother⟩

end DocxFlow
